import Mathlib

/-!
Verification of the Life simulation core (`src/life/src/game/mod.rs`).

The grid is the unbounded integer plane: `Vector2<i32>` coordinates are
modelled as unbounded integers, following the spec's data model ("a set of
unique 2D integer coordinates" on an unbounded grid; overflow at extreme
magnitudes is an accepted non-goal of the source).  The live-cell set
(`LivingList = FxHashSet<Vector2<i32>>`) is modelled as a `Finset` since
insertion order is irrelevant.
-/

namespace Life

abbrev Coord : Type := Int × Int

abbrev LivingList : Type := Finset Coord

/-- The eight neighbours of a coordinate, in the order the source lists
them (`get_adjacent`). -/
def get_adjacent (coords : Coord) : List Coord :=
  [ (coords.1 - 1, coords.2 - 1),
    (coords.1 - 1, coords.2 + 1),
    (coords.1 - 1, coords.2),
    (coords.1, coords.2 - 1),
    (coords.1, coords.2 + 1),
    (coords.1 + 1, coords.2),
    (coords.1 + 1, coords.2 - 1),
    (coords.1 + 1, coords.2 + 1) ]

/-- The value the accumulation loop of `compute_step` stores in
`adjacency_rec` for key `j`: every live cell `i` contributes one increment
to each member of `get_adjacent i`, and `prev` is a set, so the final
count at `j` is the number of live cells `i` with `j ∈ get_adjacent i`.
Keys never touched by the loop (count zero) are absent from the map. -/
def adjacency_count (prev : LivingList) (j : Coord) : Nat :=
  (prev.filter (fun i => j ∈ get_adjacent i)).card

/-- `alive_rules` from the source:
`3 == *count || (2 == *count && prev.contains(coords))`. -/
def alive_rules (count : Nat) (prev : LivingList) (coords : Coord) : Bool :=
  3 == count || (2 == count && decide (coords ∈ prev))

/-- `compute_step`: the keys of the accumulated `adjacency_rec` map are
exactly the coordinates adjacent to at least one live cell
(`prev.biUnion ...`), each carrying its accumulated count
(`adjacency_count`); the result keeps the keys passing `alive_rules`. -/
def compute_step (prev : LivingList) : LivingList :=
  (prev.biUnion (fun i => (get_adjacent i).toFinset)).filter
    (fun coords => alive_rules (adjacency_count prev coords) prev coords = true)

set_option maxHeartbeats 1000000 in
lemma mem_get_adjacent_comm (i j : Coord) :
    j ∈ get_adjacent i ↔ i ∈ get_adjacent j := by
  obtain ⟨a, b⟩ := i
  obtain ⟨c, d⟩ := j
  simp only [get_adjacent, List.mem_cons, List.not_mem_nil, or_false,
    Prod.mk.injEq]
  omega

lemma adjacency_count_eq_neighbor_card (prev : LivingList) (c : Coord) :
    adjacency_count prev c = (prev.filter (fun p => p ∈ get_adjacent c)).card := by
  unfold adjacency_count
  congr 1
  apply Finset.filter_congr
  intro p _
  simp [mem_get_adjacent_comm]

lemma alive_rules_iff (count : Nat) (prev : LivingList) (c : Coord) :
    alive_rules count prev c = true ↔
      count = 3 ∨ (count = 2 ∧ c ∈ prev) := by
  simp only [alive_rules, Bool.or_eq_true, Bool.and_eq_true, beq_iff_eq,
    decide_eq_true_eq]
  constructor
  · rintro (h | ⟨h, hm⟩)
    · exact Or.inl h.symm
    · exact Or.inr ⟨h.symm, hm⟩
  · rintro (h | ⟨h, hm⟩)
    · exact Or.inl h.symm
    · exact Or.inr ⟨h.symm, hm⟩

lemma mem_compute_step (prev : LivingList) (c : Coord) :
    c ∈ compute_step prev ↔
      adjacency_count prev c = 3 ∨ (adjacency_count prev c = 2 ∧ c ∈ prev) := by
  unfold compute_step
  rw [Finset.mem_filter, Finset.mem_biUnion]
  rw [alive_rules_iff]
  constructor
  · rintro ⟨-, h⟩
    exact h
  · intro h
    refine ⟨?_, h⟩
    have hpos : 0 < adjacency_count prev c := by
      rcases h with h | ⟨h, -⟩ <;> omega
    rw [adjacency_count, Finset.card_pos] at hpos
    obtain ⟨i, hi⟩ := hpos
    rw [Finset.mem_filter] at hi
    exact ⟨i, hi.1, by simpa using hi.2⟩

lemma compute_step_empty : compute_step (∅ : LivingList) = ∅ := by
  simp [compute_step]

/-! ## The facade state

`GameState` carries the fields of the source struct that belong to the
simulation core.  Wall-clock `Instant`s, `Duration`s and the `f32`/`f64`
view parameters are modelled as rationals: no embedded operation performs
arithmetic on them (the claims only assert that they are carried or left
unchanged), and the spec places the screen-space transforms outside the
core.  The windowing fields (`window`, `mouse_position`, `drag_state`) and
the persistence handle (`save_file`) belong to out-of-scope collaborators
and are not modelled.  A rendered `Cell` is identified by the grid
coordinate it is built from (`to_cell`'s pixel math is rendering, outside
the core), so `get_cells` yields the live-cell set itself. -/

/-- `DEFAULT_INTERVAL`, in milliseconds. -/
def DEFAULT_INTERVAL : ℚ := 300

inductive LoopState : Type where
  | Playing (last_update : ℚ)
  | Stopped
deriving DecidableEq

/-- `LoopState::update`.  Whether `last_update.elapsed() >= *interval`
holds, and the value of `Instant::now()`, depend on the wall clock, so
they are supplied as the oracle arguments `elapsed` and `now`.  Returns
the new state and whether a step is due. -/
def LoopState.update (ls : LoopState) (elapsed : Bool) (now : ℚ) :
    LoopState × Bool :=
  match ls with
  | .Playing _ => if elapsed then (.Playing now, true) else (ls, false)
  | .Stopped => (ls, false)

/-- Modelled from the spec: the `SaveGame` snapshot type lives in the
saving module, whose definition is not among the sources (only its web
storage backend is); per the spec it is a "live-cell set + view
parameters" payload, read back through the accessors `living_cells()`,
`pan_position()` and `grid_size()` used by `load_action`. -/
structure SaveGame : Type where
  living_cells : LivingList
  pan_position : ℚ × ℚ
  grid_size : ℚ
deriving DecidableEq

inductive QueueAction : Type where
  | Clear
  | Toggle (cell : Coord)
  | Load (save : SaveGame)
deriving DecidableEq

structure StateChanges : Type where
  grid_size : Option ℚ
  cells : Option LivingList
  offset : Option (ℚ × ℚ)
deriving DecidableEq

/-- `StateChanges::default()`, the value `std::mem::take` leaves behind. -/
def StateChanges.take : StateChanges :=
  { grid_size := none, cells := none, offset := none }

structure GameState : Type where
  pan_position : ℚ × ℚ
  living_cells : LivingList
  loop_state : LoopState
  interval : ℚ
  grid_size : ℚ
  input_queue : List QueueAction
  living_cell_count : Nat
  step_count : Nat
  living_count_history : List Nat
  changes : StateChanges
  toggle_record : List Nat
deriving DecidableEq

/-- `GameState::get_living_count`: "The current number of living cells". -/
def GameState.get_living_count (s : GameState) : Nat :=
  s.living_cell_count

/-- `get_cells`: the renderable cells, one per living coordinate. -/
def GameState.get_cells (s : GameState) : LivingList :=
  s.living_cells

/-- The common part of both `GameState::new` constructors. -/
def GameState.new (grid_size : ℚ) : GameState :=
  { pan_position := (0, 0)
    living_cells := ∅
    loop_state := .Stopped
    interval := DEFAULT_INTERVAL
    grid_size := grid_size
    input_queue := []
    living_cell_count := 0
    step_count := 0
    living_count_history := [0]
    changes := StateChanges.take
    toggle_record := [] }

/-- `GameState::clear_action` (shared by both builds). -/
def clear_action (s : GameState) : GameState :=
  { s with
    living_cells := ∅
    step_count := 0
    living_count_history := [0]
    living_cell_count := 0
    changes := { s.changes with cells := some ∅ }
    toggle_record := [] }

/-- `GameState::left_action` (shared by both builds): toggle membership of
`cell_pos`, record the toggle at the current step count, publish the new
cell list. -/
def left_action (s : GameState) (cell_pos : Coord) : GameState :=
  let living :=
    if cell_pos ∈ s.living_cells then s.living_cells.erase cell_pos
    else insert cell_pos s.living_cells
  { s with
    living_cells := living
    toggle_record := s.toggle_record ++ [s.step_count]
    changes := { s.changes with cells := some living } }

/-- `GameState::load_action` (shared by both builds). -/
def load_action (s : GameState) (save : SaveGame) : GameState :=
  let s := clear_action s
  { s with
    living_cells := save.living_cells
    pan_position := save.pan_position
    grid_size := save.grid_size
    changes :=
      { cells := some save.living_cells
        grid_size := some save.grid_size
        offset := some save.pan_position } }

/-- One iteration of the `resolve_queue` loop body. -/
def applyQueueAction (s : GameState) : QueueAction → GameState
  | .Clear => clear_action s
  | .Toggle cell => left_action s cell
  | .Load save => load_action s save

def resolveGo (s : GameState) : List QueueAction → GameState
  | [] => s
  | a :: rest => resolveGo (applyQueueAction s a) rest

/-- `GameState::resolve_queue`: pop from the front until empty, applying
each action.  None of the three handlers touches `input_queue`, so the
loop is draining the queue head-to-tail and applying the handlers in that
order. -/
def resolve_queue (s : GameState) : GameState :=
  resolveGo { s with input_queue := [] } s.input_queue

/-! ## The synchronous build (`#[cfg(not(feature = "native_threads"))]`)

`GameState` itself is the state of the non-threaded build.  `handle_left`
only runs the screen-to-grid transform `find_cell_num` (out-of-scope view
arithmetic) before `left_action`, so the toggle entry point takes the grid
coordinate directly, as the spec's `toggle_cell(coord)` does. -/

/-- Non-threaded `GameState::step`: run `compute_step` inline and commit. -/
def GameState.step (s : GameState) : GameState :=
  let next := compute_step s.living_cells
  { s with
    living_cells := next
    changes := { s.changes with cells := some next }
    step_count := s.step_count + 1
    living_cell_count := next.card
    living_count_history := s.living_count_history ++ [next.card] }

/-- Non-threaded `GameState::clear`: the source only empties the live set
and publishes an empty cell list. -/
def GameState.clear (s : GameState) : GameState :=
  { s with
    living_cells := ∅
    changes := { s.changes with cells := some ∅ } }

/-- Non-threaded `GameState::handle_left` at a grid coordinate. -/
def GameState.toggle_cell (s : GameState) (cell_pos : Coord) : GameState :=
  left_action s cell_pos

/-- Non-threaded `GameState::load_save`. -/
def GameState.load_save (s : GameState) (save : SaveGame) : GameState :=
  load_action s save

/-- Non-threaded `GameState::update`: poll the timer, step inline if due,
resolve the (always empty in this build) queue, and take the changes. -/
def GameState.update (s : GameState) (elapsed : Bool) (now : ℚ) :
    GameState × StateChanges :=
  let lu := s.loop_state.update elapsed now
  let s := { s with loop_state := lu.1 }
  let s := if lu.2 then s.step else s
  let s := resolve_queue s
  ({ s with changes := StateChanges.take }, s.changes)

/-! ## The threaded build (`#[cfg(feature = "native_threads")]`)

`ThreadData`'s contents are inlined as extra fields: the atomic `computing`
flag, the mutex-guarded `StepThreadNotification`, and the
single-producer/single-consumer result channel `rx`, modelled as the list
of not-yet-received messages.  The condition variable is modelled by the
flag `notified`: `Condvar::notify_all` sets it, and the worker's
`Condvar::wait` can only return when it is set, consuming it (spurious
wakeups are not modelled).  Thread interleaving is modelled by making each
facade call and each worker loop iteration one atomic transition: the
source's worker holds the notification mutex for its whole iteration, and
every facade path that touches the shared data takes the same mutex. -/

inductive StepThreadNotification : Type where
  | Exit
  | Waiting
  | Compute (data : LivingList)
deriving DecidableEq

structure TGameState extends GameState where
  computing : Bool
  notification : StepThreadNotification
  notified : Bool
  rx : List LivingList
deriving DecidableEq

/-- Threaded `GameState::new`: the worker starts blocked on the condition
variable with the notification at `Waiting`, nothing computing, and an
empty result channel. -/
def TGameState.new (grid_size : ℚ) : TGameState :=
  { toGameState := GameState.new grid_size
    computing := false
    notification := .Waiting
    notified := false
    rx := [] }

/-- Threaded `GameState::step`: no-op when `computing` is set; otherwise
store `Compute(snapshot)` in the notification slot and signal the
condition variable. -/
def TGameState.step (s : TGameState) : TGameState :=
  if s.computing then s
  else { s with notification := .Compute s.living_cells, notified := true }

/-- Threaded `GameState::clear`: defer while computing, else act now. -/
def TGameState.clear (s : TGameState) : TGameState :=
  if s.computing then { s with input_queue := s.input_queue ++ [.Clear] }
  else { s with toGameState := clear_action s.toGameState }

/-- Threaded `GameState::handle_left` at a grid coordinate: defer while
computing, else act now. -/
def TGameState.toggle_cell (s : TGameState) (cell_pos : Coord) : TGameState :=
  if s.computing then
    { s with input_queue := s.input_queue ++ [.Toggle cell_pos] }
  else { s with toGameState := left_action s.toGameState cell_pos }

/-- Threaded `GameState::load_save`: defer while computing, else act now. -/
def TGameState.load_save (s : TGameState) (save : SaveGame) : TGameState :=
  if s.computing then { s with input_queue := s.input_queue ++ [.Load save] }
  else { s with toGameState := load_action s.toGameState save }

/-- `resolve_queue` on the threaded state: the handlers live on the common
fields and never touch the thread data. -/
def resolve_queueT (s : TGameState) : TGameState :=
  { s with toGameState := resolve_queue s.toGameState }

/-- Outcome of one iteration of the worker thread's loop. -/
inductive WorkerStep : Type where
  | blocked
  | looped (s : TGameState)
  | exited (s : TGameState)
deriving DecidableEq

/-- One iteration of the worker loop spawned in `GameState::new`: wait on
the condition variable (possible only once notified), then match on the
notification — `Exit` breaks the loop, `Waiting` loops, `Compute(data)`
sets `computing`, sends `compute_step data` down the channel and resets
the notification to `Waiting`. -/
def worker_run (s : TGameState) : WorkerStep :=
  if s.notified = false then .blocked
  else
    let s := { s with notified := false }
    match s.notification with
    | .Exit => .exited s
    | .Waiting => .looped s
    | .Compute data =>
        .looped
          { s with
            computing := true
            rx := s.rx ++ [compute_step data]
            notification := .Waiting }

/-- The body of threaded `update`'s `if let Ok(v) = ... try_recv()` block,
up to draining the queue: commit the received generation `v` (replace the
live set, publish the cells, reset `computing` and the notification, bump
the step counter, record the population) leaving `rest` in the channel. -/
def TGameState.commit_result (s : TGameState) (v : LivingList)
    (rest : List LivingList) : TGameState :=
  { s with
    living_cells := v
    changes := { s.changes with cells := some v }
    computing := false
    notification := .Waiting
    step_count := s.step_count + 1
    living_cell_count := v.card
    living_count_history := s.living_count_history ++ [v.card]
    rx := rest }

/-- The receive half of threaded `update`: non-blocking `try_recv`; on a
result, commit it and drain the deferral queue; always take the changes. -/
def TGameState.poll_recv (s : TGameState) : TGameState × StateChanges :=
  match s.rx with
  | [] => ({ s with changes := StateChanges.take }, s.changes)
  | v :: rest =>
      let s := resolve_queueT (s.commit_result v rest)
      ({ s with changes := StateChanges.take }, s.changes)

/-- Threaded `GameState::update`: poll the timer and auto-step if due and
idle (`should_step && !computing`), then poll the result channel. -/
def TGameState.update (s : TGameState) (elapsed : Bool) (now : ℚ) :
    TGameState × StateChanges :=
  let lu := s.loop_state.update elapsed now
  let s := { s with loop_state := lu.1 }
  let s := if lu.2 && !s.computing then s.step else s
  s.poll_recv

/-- `impl Drop for GameState`: the destructor locks the notification slot
and stores `Exit`.  It performs no `Condvar` notification, so `notified`
is left as it was. -/
def TGameState.drop_teardown (s : TGameState) : TGameState :=
  { s with notification := .Exit }

/-! ## Call sequences against the facade -/

/-- A call against the synchronous facade. -/
inductive SAction : Type where
  | step
  | clear
  | toggle (cell : Coord)
  | load (save : SaveGame)
  | update (elapsed : Bool) (now : ℚ)

def SAction.apply (s : GameState) : SAction → GameState
  | .step => s.step
  | .clear => s.clear
  | .toggle cell => s.toggle_cell cell
  | .load save => s.load_save save
  | .update elapsed now => (s.update elapsed now).1

def GameState.run (s : GameState) (acts : List SAction) : GameState :=
  acts.foldl SAction.apply s

/-- A call against the threaded facade, or one worker loop iteration
interleaved with the calls. -/
inductive TAction : Type where
  | step
  | clear
  | toggle (cell : Coord)
  | load (save : SaveGame)
  | update (elapsed : Bool) (now : ℚ)
  | worker

def TAction.apply (s : TGameState) : TAction → TGameState
  | .step => s.step
  | .clear => s.clear
  | .toggle cell => s.toggle_cell cell
  | .load save => s.load_save save
  | .update elapsed now => (s.update elapsed now).1
  | .worker =>
      match worker_run s with
      | .blocked => s
      | .looped t => t
      | .exited t => t

def TGameState.run (s : TGameState) (acts : List TAction) : TGameState :=
  acts.foldl TAction.apply s

/-! ## The step-counter / population-history invariant -/

def history_inv (s : GameState) : Prop :=
  s.living_count_history.length = s.step_count + 1

lemma history_inv_clear_action (s : GameState) :
    history_inv (clear_action s) := by
  simp [history_inv, clear_action]

lemma history_inv_left_action (s : GameState) (c : Coord)
    (h : history_inv s) : history_inv (left_action s c) := h

lemma history_inv_load_action (s : GameState) (sv : SaveGame) :
    history_inv (load_action s sv) := by
  simp [history_inv, load_action, clear_action]

lemma history_inv_applyQueueAction (s : GameState) (a : QueueAction)
    (h : history_inv s) : history_inv (applyQueueAction s a) := by
  cases a with
  | Clear => exact history_inv_clear_action s
  | Toggle cell => exact history_inv_left_action s cell h
  | Load save => exact history_inv_load_action s save

lemma history_inv_resolveGo (q : List QueueAction) :
    ∀ s : GameState, history_inv s → history_inv (resolveGo s q) := by
  induction q with
  | nil => intro s h; exact h
  | cons a rest ih =>
      intro s h
      exact ih _ (history_inv_applyQueueAction s a h)

lemma history_inv_resolve_queue (s : GameState) (h : history_inv s) :
    history_inv (resolve_queue s) :=
  history_inv_resolveGo s.input_queue _ h

lemma history_inv_stepS (s : GameState) (h : history_inv s) :
    history_inv s.step := by
  show (s.living_count_history ++ [(compute_step s.living_cells).card]).length
      = s.step_count + 1 + 1
  rw [List.length_append]
  simp only [history_inv] at h
  simp only [List.length_cons, List.length_nil]
  omega

lemma history_inv_clearS (s : GameState) (h : history_inv s) :
    history_inv s.clear := h

lemma history_inv_updateS (s : GameState) (e : Bool) (n : ℚ)
    (h : history_inv s) : history_inv (s.update e n).1 := by
  show history_inv (resolve_queue
    (if (s.loop_state.update e n).2 = true then
      GameState.step { s with loop_state := (s.loop_state.update e n).1 }
    else { s with loop_state := (s.loop_state.update e n).1 }))
  apply history_inv_resolve_queue
  split
  · exact history_inv_stepS _ h
  · exact h

lemma history_inv_applyS (s : GameState) (a : SAction)
    (h : history_inv s) : history_inv (SAction.apply s a) := by
  cases a with
  | step => exact history_inv_stepS s h
  | clear => exact history_inv_clearS s h
  | toggle cell => exact history_inv_left_action s cell h
  | load save => exact history_inv_load_action s save
  | update elapsed now => exact history_inv_updateS s elapsed now h

lemma history_inv_runS (acts : List SAction) :
    ∀ s : GameState, history_inv s → history_inv (s.run acts) := by
  induction acts with
  | nil => intro s h; exact h
  | cons a rest ih =>
      intro s h
      exact ih _ (history_inv_applyS s a h)

lemma history_inv_new (g : ℚ) : history_inv (GameState.new g) := by
  simp [history_inv, GameState.new]

def history_invT (s : TGameState) : Prop :=
  history_inv s.toGameState

lemma history_invT_step (s : TGameState) (h : history_invT s) :
    history_invT s.step := by
  unfold TGameState.step
  split
  · exact h
  · exact h

lemma history_invT_clear (s : TGameState) (h : history_invT s) :
    history_invT s.clear := by
  unfold TGameState.clear
  split
  · exact h
  · exact history_inv_clear_action s.toGameState

lemma history_invT_toggle (s : TGameState) (c : Coord) (h : history_invT s) :
    history_invT (s.toggle_cell c) := by
  unfold TGameState.toggle_cell
  split
  · exact h
  · exact history_inv_left_action s.toGameState c h

lemma history_invT_load (s : TGameState) (sv : SaveGame) (h : history_invT s) :
    history_invT (s.load_save sv) := by
  unfold TGameState.load_save
  split
  · exact h
  · exact history_inv_load_action s.toGameState sv

lemma history_invT_commit (s : TGameState) (v : LivingList)
    (rest : List LivingList) (h : history_invT s) :
    history_invT (s.commit_result v rest) := by
  show (s.living_count_history ++ [v.card]).length = s.step_count + 1 + 1
  rw [List.length_append]
  simp only [history_invT, history_inv] at h
  simp only [List.length_cons, List.length_nil]
  omega

lemma history_invT_poll_recv (s : TGameState) (h : history_invT s) :
    history_invT s.poll_recv.1 := by
  unfold TGameState.poll_recv
  cases hrx : s.rx with
  | nil => exact h
  | cons v rest =>
      exact history_inv_resolve_queue _ (history_invT_commit s v rest h)

lemma history_invT_update (s : TGameState) (e : Bool) (n : ℚ)
    (h : history_invT s) : history_invT (s.update e n).1 := by
  show history_invT (TGameState.poll_recv
    (if ((s.loop_state.update e n).2 && !s.computing) = true then
      TGameState.step { s with loop_state := (s.loop_state.update e n).1 }
    else { s with loop_state := (s.loop_state.update e n).1 })).1
  apply history_invT_poll_recv
  split
  · exact history_invT_step _ h
  · exact h

lemma history_invT_worker_cases (s : TGameState) :
    worker_run s = .blocked ∨
      (∃ t, worker_run s = .looped t ∧ t.toGameState = s.toGameState) ∨
      (∃ t, worker_run s = .exited t ∧ t.toGameState = s.toGameState) := by
  obtain ⟨core, comp, noti, ntf, ch⟩ := s
  cases ntf with
  | false => left; rfl
  | true =>
      right
      cases noti with
      | Exit => right; exact ⟨_, rfl, rfl⟩
      | Waiting => left; exact ⟨_, rfl, rfl⟩
      | Compute data => left; exact ⟨_, rfl, rfl⟩

lemma history_invT_apply (s : TGameState) (a : TAction)
    (h : history_invT s) : history_invT (TAction.apply s a) := by
  cases a with
  | step => exact history_invT_step s h
  | clear => exact history_invT_clear s h
  | toggle cell => exact history_invT_toggle s cell h
  | load save => exact history_invT_load s save h
  | update elapsed now => exact history_invT_update s elapsed now h
  | worker =>
      show history_invT (match worker_run s with
        | .blocked => s
        | .looped t => t
        | .exited t => t)
      rcases history_invT_worker_cases s with hw | ⟨t, hw, ht⟩ | ⟨t, hw, ht⟩ <;>
        rw [hw]
      · exact h
      · show history_inv t.toGameState
        rw [ht]; exact h
      · show history_inv t.toGameState
        rw [ht]; exact h

lemma history_invT_run (acts : List TAction) :
    ∀ s : TGameState, history_invT s → history_invT (s.run acts) := by
  induction acts with
  | nil => intro s h; exact h
  | cons a rest ih =>
      intro s h
      exact ih _ (history_invT_apply s a h)

lemma history_invT_new (g : ℚ) : history_invT (TGameState.new g) :=
  history_inv_new g

/-! ## The single-flight invariant

An outstanding computation is either a `Compute` request the worker has
not yet picked up, or a finished result sitting in the channel awaiting
`try_recv`. -/

def pendingCompute : StepThreadNotification → Nat
  | .Compute _ => 1
  | _ => 0

def outstanding (s : TGameState) : Nat :=
  pendingCompute s.notification + s.rx.length

def flight_inv (s : TGameState) : Prop :=
  outstanding s ≤ 1 ∧ (s.rx ≠ [] → s.computing = true)

lemma flight_inv_step (s : TGameState) (h : flight_inv s) :
    flight_inv s.step := by
  by_cases hc : s.computing = true
  · unfold TGameState.step
    rw [if_pos hc]
    exact h
  · have hrx : s.rx = [] := by
      by_contra hne
      exact hc (h.2 hne)
    unfold TGameState.step
    rw [if_neg hc]
    constructor
    · show pendingCompute (.Compute s.living_cells) + s.rx.length ≤ 1
      rw [hrx]
      simp [pendingCompute]
    · intro hne
      exact absurd hrx hne

lemma flight_inv_clear (s : TGameState) (h : flight_inv s) :
    flight_inv s.clear := by
  unfold TGameState.clear
  split
  · exact h
  · exact h

lemma flight_inv_toggle (s : TGameState) (c : Coord) (h : flight_inv s) :
    flight_inv (s.toggle_cell c) := by
  unfold TGameState.toggle_cell
  split
  · exact h
  · exact h

lemma flight_inv_load (s : TGameState) (sv : SaveGame) (h : flight_inv s) :
    flight_inv (s.load_save sv) := by
  unfold TGameState.load_save
  split
  · exact h
  · exact h

lemma flight_inv_poll_recv (s : TGameState) (h : flight_inv s) :
    flight_inv s.poll_recv.1 := by
  obtain ⟨core, comp, noti, ntf, ch⟩ := s
  cases ch with
  | nil => exact h
  | cons v rest =>
      have h1 : pendingCompute noti + (rest.length + 1) ≤ 1 := h.1
      have hrest : rest = [] := by
        cases rest with
        | nil => rfl
        | cons a b =>
            simp only [List.length_cons] at h1
            omega
      subst hrest
      refine ⟨?_, ?_⟩
      · show pendingCompute .Waiting + ([] : List LivingList).length ≤ 1
        simp [pendingCompute]
      · intro hne
        exact absurd rfl hne

lemma flight_inv_update (s : TGameState) (e : Bool) (n : ℚ)
    (h : flight_inv s) : flight_inv (s.update e n).1 := by
  show flight_inv (TGameState.poll_recv
    (if ((s.loop_state.update e n).2 && !s.computing) = true then
      TGameState.step { s with loop_state := (s.loop_state.update e n).1 }
    else { s with loop_state := (s.loop_state.update e n).1 })).1
  apply flight_inv_poll_recv
  split
  · exact flight_inv_step _ h
  · exact h

lemma flight_inv_worker (s : TGameState) (h : flight_inv s) :
    flight_inv (TAction.apply s TAction.worker) := by
  obtain ⟨core, comp, noti, ntf, ch⟩ := s
  cases ntf with
  | false => exact h
  | true =>
      cases noti with
      | Exit => exact h
      | Waiting => exact h
      | Compute data =>
          have h1 : 1 + ch.length ≤ 1 := h.1
          have hch : ch = [] := by
            cases ch with
            | nil => rfl
            | cons a b =>
                simp only [List.length_cons] at h1
                omega
          subst hch
          refine ⟨?_, ?_⟩
          · show pendingCompute .Waiting +
              ([] ++ [compute_step data]).length ≤ 1
            simp [pendingCompute]
          · intro _
            rfl

lemma flight_inv_apply (s : TGameState) (a : TAction)
    (h : flight_inv s) : flight_inv (TAction.apply s a) := by
  cases a with
  | step => exact flight_inv_step s h
  | clear => exact flight_inv_clear s h
  | toggle cell => exact flight_inv_toggle s cell h
  | load save => exact flight_inv_load s save h
  | update elapsed now => exact flight_inv_update s elapsed now h
  | worker => exact flight_inv_worker s h

lemma flight_inv_run (acts : List TAction) :
    ∀ s : TGameState, flight_inv s → flight_inv (s.run acts) := by
  induction acts with
  | nil => intro s h; exact h
  | cons a rest ih =>
      intro s h
      exact ih _ (flight_inv_apply s a h)

lemma flight_inv_new (g : ℚ) : flight_inv (TGameState.new g) := by
  refine ⟨?_, fun hne => absurd rfl hne⟩
  show pendingCompute .Waiting + ([] : List LivingList).length ≤ 1
  simp [pendingCompute]

/-! ## Claims -/

/-- Claim C1: the grid step rule is the standard Life rule via neighbour
accumulation — a coordinate is in `compute_step`'s output iff its
accumulated count is exactly 3, or exactly 2 and it was alive; the
accumulated count is the number of live 8-neighbours; an empty `LivingList`
steps to an empty `LivingList`. -/
theorem claim_C1_step_rule (prev : LivingList) (c : Coord) :
    (c ∈ compute_step prev ↔
      adjacency_count prev c = 3 ∨ (adjacency_count prev c = 2 ∧ c ∈ prev)) ∧
    adjacency_count prev c
        = (prev.filter (fun p => p ∈ get_adjacent c)).card ∧
    compute_step (∅ : LivingList) = ∅ :=
  ⟨mem_compute_step prev c, adjacency_count_eq_neighbor_card prev c,
    compute_step_empty⟩

/-- Claim C2 is false on the code: `left_action` never refreshes the
cached `living_cell_count`, so immediately after a manual toggle of one
cell in a fresh state `get_living_count` still returns 0 while the
`LivingList` holds 1 coordinate. -/
theorem claim_C2_living_count_stale :
    GameState.get_living_count ((GameState.new 1).toggle_cell (0, 0)) = 0 ∧
    ((GameState.new 1).toggle_cell (0, 0)).living_cells.card = 1 := by
  constructor
  · rfl
  · decide

/-- Claim C3 is false on the non-threaded build it cites: from a fresh
state, toggle `(0,0)`, step once (the lone cell dies), then call `clear()`.
The non-threaded `clear` empties the `LivingList` but leaves the step
counter at 1, the population history at `[0, 0]`, and the toggle history
at `[0]`, where the claim requires 0, `[0]` and `[]`. -/
theorem claim_C3_sync_clear_not_reset :
    ((((GameState.new 1).toggle_cell (0, 0)).step).clear).living_cells = ∅ ∧
    ((((GameState.new 1).toggle_cell (0, 0)).step).clear).step_count = 1 ∧
    ((((GameState.new 1).toggle_cell (0, 0)).step).clear).living_count_history
        = [0, 0] ∧
    ((((GameState.new 1).toggle_cell (0, 0)).step).clear).toggle_record
        = [0] := by
  refine ⟨rfl, rfl, ?_, rfl⟩
  decide

/-- Claim C5: `population_history.len() == step_count + 1` holds in the
initial state and after any sequence of facade calls (interleaved with
worker iterations in the threaded build), in both builds. -/
theorem claim_C5_counter_invariant (g : ℚ) (tacts : List TAction)
    (sacts : List SAction) :
    ((TGameState.new g).run tacts).living_count_history.length
        = ((TGameState.new g).run tacts).step_count + 1 ∧
    ((GameState.new g).run sacts).living_count_history.length
        = ((GameState.new g).run sacts).step_count + 1 :=
  ⟨history_invT_run tacts _ (history_invT_new g),
    history_inv_runS sacts _ (history_inv_new g)⟩

/-- Claim C7: at most one computation is outstanding (a pending `Compute`
request or an unreceived result) after any sequence of calls and worker
iterations, and `step()` on a state whose `computing` flag is set is a
strict no-op. -/
theorem claim_C7_single_flight (g : ℚ) (acts : List TAction)
    (s : TGameState) (h : s.computing = true) :
    outstanding ((TGameState.new g).run acts) ≤ 1 ∧ s.step = s := by
  refine ⟨(flight_inv_run acts _ (flight_inv_new g)).1, ?_⟩
  unfold TGameState.step
  rw [if_pos h]

/-- Witness for C7 at a concrete busy state and the empty call list. -/
theorem claim_C7_single_flight_witness :
    outstanding ((TGameState.new 1).run []) ≤ 1 ∧
      TGameState.step { TGameState.new 1 with computing := true }
        = { TGameState.new 1 with computing := true } :=
  claim_C7_single_flight 1 []
    { TGameState.new 1 with computing := true } rfl

/-- Claim C4 is false on the code: run `step` to a committed result and
then `clear` against both strategies.  The threaded strategy (dispatch,
worker iteration, poll that commits, then clear) ends with the step
counter reset to 0 and history `[0]`; the synchronous strategy ends with
step counter 1 and history `[0, 0]`, because its `clear` skips the
counter/history/toggle-record reset. -/
theorem claim_C4_strategy_divergence :
    ((TGameState.new 1).run
        [TAction.step, TAction.worker, TAction.update false 0,
          TAction.clear]).step_count = 0 ∧
    ((TGameState.new 1).run
        [TAction.step, TAction.worker, TAction.update false 0,
          TAction.clear]).living_count_history = [0] ∧
    ((GameState.new 1).run [SAction.step, SAction.clear]).step_count = 1 ∧
    ((GameState.new 1).run [SAction.step, SAction.clear]).living_count_history
        = [0, 0] := by
  refine ⟨rfl, ?_, rfl, ?_⟩ <;> decide

/-- A horizontal blinker. -/
def blinker : LivingList := {(0, 1), (1, 1), (2, 1)}

/-- Claim C8: from a fresh state whose live set is the blinker, one step
yields the vertical blinker, a second step restores the original, the
step counter reads 2 and the population history is `[0, 3, 3]`. -/
theorem claim_C8_blinker :
    ({ GameState.new 1 with living_cells := blinker }).step.living_cells
        = ({(1, 0), (1, 1), (1, 2)} : LivingList) ∧
    ({ GameState.new 1 with
        living_cells := blinker }).step.step.living_cells = blinker ∧
    ({ GameState.new 1 with
        living_cells := blinker }).step.step.step_count = 2 ∧
    ({ GameState.new 1 with
        living_cells := blinker }).step.step.living_count_history
        = [0, 3, 3] := by
  refine ⟨?_, ?_, rfl, ?_⟩ <;> decide

/-- Claim C9 is false on the code: `Drop` stores `Exit` in the
notification slot but performs no condition-variable notification, so a
worker blocked in `Condvar::wait` cannot wake — `worker_run` stays
`blocked` after teardown.  Had the signal been sent (`notified := true`),
the very same worker iteration would have exited cleanly. -/
theorem claim_C9_shutdown_not_signaled :
    worker_run ((TGameState.new 1).drop_teardown) = WorkerStep.blocked ∧
    ((TGameState.new 1).drop_teardown).notification
        = StepThreadNotification.Exit ∧
    worker_run { (TGameState.new 1).drop_teardown with notified := true }
      = WorkerStep.exited
          { (TGameState.new 1).drop_teardown with notified := false } :=
  ⟨rfl, rfl, rfl⟩

lemma toggle_toggle (S : Finset Coord) (c : Coord) :
    (if c ∈ (if c ∈ S then S.erase c else insert c S)
     then (if c ∈ S then S.erase c else insert c S).erase c
     else insert c (if c ∈ S then S.erase c else insert c S)) = S := by
  by_cases hc : c ∈ S
  · simp [hc, Finset.not_mem_erase, Finset.insert_erase hc]
  · simp [hc, Finset.erase_insert hc]

lemma left_action_erase (g : GameState) (c : Coord) :
    (left_action g c).living_cells.erase c = g.living_cells.erase c := by
  simp only [left_action]
  by_cases hc : c ∈ g.living_cells <;>
    simp [hc, Finset.erase_idem, Finset.erase_insert_eq_erase]

lemma left_action_mem_toggled (g : GameState) (c : Coord) :
    c ∈ (left_action g c).living_cells ↔ c ∉ g.living_cells := by
  simp only [left_action]
  by_cases hc : c ∈ g.living_cells <;> simp [hc]

/-- Claim C6: a toggle arriving while busy is appended at the queue's
tail; draining applies the queued actions head-to-tail through the
synchronous handlers; and draining two deferred toggles of the same cell
restores the cell's membership and appends exactly two entries (the
current step count, twice) to the toggle history. -/
theorem claim_C6_deferred_fifo (s : TGameState) (g : GameState)
    (q : List QueueAction) (c : Coord) (h : s.computing = true) :
    s.toggle_cell c
        = { s with input_queue := s.input_queue ++ [QueueAction.Toggle c] } ∧
    resolve_queue { g with input_queue := q }
        = resolveGo { g with input_queue := [] } q ∧
    (resolve_queue { g with
        input_queue := [QueueAction.Toggle c, QueueAction.Toggle c]
      }).living_cells = g.living_cells ∧
    (resolve_queue { g with
        input_queue := [QueueAction.Toggle c, QueueAction.Toggle c]
      }).toggle_record = g.toggle_record ++ [g.step_count, g.step_count] := by
  refine ⟨?_, rfl, ?_, ?_⟩
  · unfold TGameState.toggle_cell
    rw [if_pos h]
  · exact toggle_toggle g.living_cells c
  · show (g.toggle_record ++ [g.step_count]) ++ [g.step_count]
        = g.toggle_record ++ [g.step_count, g.step_count]
    simp

/-- Witness for C6 at a concrete busy state, queue and cell. -/
theorem claim_C6_deferred_fifo_witness :
    TGameState.toggle_cell { TGameState.new 1 with computing := true } (0, 0)
        = { { TGameState.new 1 with computing := true } with
            input_queue :=
              ({ TGameState.new 1 with
                  computing := true } : TGameState).input_queue
                ++ [QueueAction.Toggle (0, 0)] } ∧
    resolve_queue { GameState.new 1 with input_queue := [QueueAction.Clear] }
        = resolveGo { GameState.new 1 with input_queue := [] }
            [QueueAction.Clear] ∧
    (resolve_queue { GameState.new 1 with
        input_queue :=
          [QueueAction.Toggle (0, 0), QueueAction.Toggle (0, 0)]
      }).living_cells = (GameState.new 1).living_cells ∧
    (resolve_queue { GameState.new 1 with
        input_queue :=
          [QueueAction.Toggle (0, 0), QueueAction.Toggle (0, 0)]
      }).toggle_record
        = (GameState.new 1).toggle_record
            ++ [(GameState.new 1).step_count, (GameState.new 1).step_count] :=
  claim_C6_deferred_fifo { TGameState.new 1 with computing := true }
    (GameState.new 1) [QueueAction.Clear] (0, 0) rfl

/-- Claim C10: when no computation is outstanding, toggling a cell changes
the `LivingList` only at the target coordinate, appends the current step
count to the toggle history and publishes the cell list in the pending
`StateChanges`; the step counter, population history, cached living
count, pan offset, grid scale, interval and play state are unchanged. -/
theorem claim_C10_toggle_frame (s : TGameState) (c : Coord)
    (h : s.computing = false) :
    (s.toggle_cell c).living_cells.erase c = s.living_cells.erase c ∧
    (c ∈ (s.toggle_cell c).living_cells ↔ c ∉ s.living_cells) ∧
    (s.toggle_cell c).toggle_record = s.toggle_record ++ [s.step_count] ∧
    (s.toggle_cell c).changes.cells = some (s.toggle_cell c).living_cells ∧
    (s.toggle_cell c).changes.grid_size = s.changes.grid_size ∧
    (s.toggle_cell c).changes.offset = s.changes.offset ∧
    (s.toggle_cell c).step_count = s.step_count ∧
    (s.toggle_cell c).living_count_history = s.living_count_history ∧
    (s.toggle_cell c).living_cell_count = s.living_cell_count ∧
    (s.toggle_cell c).pan_position = s.pan_position ∧
    (s.toggle_cell c).grid_size = s.grid_size ∧
    (s.toggle_cell c).interval = s.interval ∧
    (s.toggle_cell c).loop_state = s.loop_state := by
  have ht : s.toggle_cell c
      = { s with toGameState := left_action s.toGameState c } := by
    unfold TGameState.toggle_cell
    rw [if_neg (by simp [h])]
  rw [ht]
  exact ⟨left_action_erase s.toGameState c,
    left_action_mem_toggled s.toGameState c,
    rfl, rfl, rfl, rfl, rfl, rfl, rfl, rfl, rfl, rfl, rfl⟩

/-- Witness for C10 at a fresh (idle) state and cell `(0,0)`. -/
theorem claim_C10_toggle_frame_witness :
    (TGameState.toggle_cell (TGameState.new 1) (0, 0)).living_cells.erase (0, 0)
        = (TGameState.new 1).living_cells.erase (0, 0) ∧
    ((0, 0) ∈ (TGameState.toggle_cell (TGameState.new 1) (0, 0)).living_cells
      ↔ (0, 0) ∉ (TGameState.new 1).living_cells) ∧
    (TGameState.toggle_cell (TGameState.new 1) (0, 0)).toggle_record
        = (TGameState.new 1).toggle_record ++ [(TGameState.new 1).step_count] ∧
    (TGameState.toggle_cell (TGameState.new 1) (0, 0)).changes.cells
        = some (TGameState.toggle_cell (TGameState.new 1) (0, 0)).living_cells ∧
    (TGameState.toggle_cell (TGameState.new 1) (0, 0)).changes.grid_size
        = (TGameState.new 1).changes.grid_size ∧
    (TGameState.toggle_cell (TGameState.new 1) (0, 0)).changes.offset
        = (TGameState.new 1).changes.offset ∧
    (TGameState.toggle_cell (TGameState.new 1) (0, 0)).step_count
        = (TGameState.new 1).step_count ∧
    (TGameState.toggle_cell (TGameState.new 1) (0, 0)).living_count_history
        = (TGameState.new 1).living_count_history ∧
    (TGameState.toggle_cell (TGameState.new 1) (0, 0)).living_cell_count
        = (TGameState.new 1).living_cell_count ∧
    (TGameState.toggle_cell (TGameState.new 1) (0, 0)).pan_position
        = (TGameState.new 1).pan_position ∧
    (TGameState.toggle_cell (TGameState.new 1) (0, 0)).grid_size
        = (TGameState.new 1).grid_size ∧
    (TGameState.toggle_cell (TGameState.new 1) (0, 0)).interval
        = (TGameState.new 1).interval ∧
    (TGameState.toggle_cell (TGameState.new 1) (0, 0)).loop_state
        = (TGameState.new 1).loop_state :=
  claim_C10_toggle_frame (TGameState.new 1) (0, 0) rfl

end Life
